import Mathlib

/-!
Verification of the debate-orchestration core of the multi-AI medical
diagnosis repository.  The Python sources are shallowly embedded as
executable Lean definitions: machine-level side effects (printing, HTTP
calls to AI vendors, sleeping) are dropped, external text generation is
modelled as an oracle, and every scheduling / parsing / state-machine
computation is translated directly.
-/

namespace MedDiag

/- ------------------------------------------------------------------ -/
/- Referee scheduler (multi_ai_medical_diagnosis.py,
   MultiAIDiagnosisSystem.should_reset_referee).  Rounds are `Int` so
   that the Python expression `(current_round - initialization_round) % 5`
   keeps its semantics (Python `%` on a positive modulus is nonnegative,
   matching `Int.emod`). -/

def should_reset_referee (initialization_round : Int) (current_round : Int) : Bool :=
  if current_round = 0 then false
  else if initialization_round = 0 then current_round % 5 = 0
  else (current_round - initialization_round) % 5 = 0

/- get_active_referee: `self.referees[current_round % len(self.referees)]`
   with `referees = [referee_a, referee_b]`; we record just the index. -/
def active_referee_index (current_round : Nat) : Nat :=
  current_round % 2

/- ------------------------------------------------------------------ -/
/- Stagnation detector and handler (medical_diagnosis_system.py).
   `DiagnosisOpinion` is the dataclass with fields specialist, diagnosis,
   confidence, reasoning; the float confidence is embedded as `Rat`. -/

structure DiagnosisOpinion where
  specialist : String
  diagnosis : String
  confidence : Rat
  reasoning : String
  deriving DecidableEq, Repr

/- The mutable attributes of MedicalDiagnosisSystem that the stagnation
   logic reads and writes. -/
structure MDState where
  active_opinions : List DiagnosisOpinion
  last_opinions : List String
  stagnation_count : Nat
  current_round : Nat
  max_rounds : Nat
  deriving DecidableEq, Repr

def stagnation_threshold : Nat := 10

/- Python `sorted` on strings: insertion sort by the lexicographic
   (code-point) order, which is what `String ≤` is. -/
def insertString (s : String) : List String → List String
  | [] => [s]
  | t :: ts => if s ≤ t then s :: t :: ts else t :: insertString s ts

def sortStrings : List String → List String
  | [] => []
  | s :: ss => insertString s (sortStrings ss)

/- `"|".join(sorted([op.diagnosis for op in self.active_opinions]))` -/
def opinions_signature (ops : List DiagnosisOpinion) : String :=
  String.intercalate "|" (sortStrings (ops.map (fun op => op.diagnosis)))

/- MedicalDiagnosisSystem._check_stagnation, returning the result boolean
   together with the updated state. -/
def check_stagnation (st : MDState) : Bool × MDState :=
  if st.active_opinions.length = 0 then (false, st)
  else
    let cur := opinions_signature st.active_opinions
    match st.last_opinions.getLast? with
    | none => (false, { st with last_opinions := [cur] })
    | some last =>
      if cur = last then
        let st1 := { st with stagnation_count := st.stagnation_count + 1 }
        (decide (stagnation_threshold ≤ st1.stagnation_count), st1)
      else
        let st1 := { st with stagnation_count := 0,
                             last_opinions := st.last_opinions ++ [cur] }
        (decide (stagnation_threshold ≤ st1.stagnation_count), st1)

/- `len(set(op.diagnosis for op in self.active_opinions))` -/
def countDistinct (l : List String) : Nat :=
  (l.foldl (fun acc d => if d ∈ acc then acc else acc ++ [d]) []).length

def unique_opinion_count (st : MDState) : Nat :=
  countDistinct (st.active_opinions.map (fun op => op.diagnosis))

/- The DiagnosisOpinion literal built by _inject_third_perspective; the
   free-text reasoning comes from the external model call. -/
def third_perspective_opinion (newPerspective : String) : DiagnosisOpinion :=
  { specialist := "독립전문의"
    diagnosis := "제3의 관점"
    confidence := (7 : Rat) / 10
    reasoning := newPerspective }

def inject_third_perspective (st : MDState) (newPerspective : String) : MDState :=
  { st with
      active_opinions := st.active_opinions ++ [third_perspective_opinion newPerspective]
      stagnation_count := 0 }

/- MedicalDiagnosisSystem._handle_stagnation -/
def handle_stagnation (st : MDState) (newPerspective : String) : MDState :=
  let unique_opinions := unique_opinion_count st
  if unique_opinions = 2 then { st with current_round := st.max_rounds }
  else if 3 ≤ unique_opinions then inject_third_perspective st newPerspective
  else st

/- MedicalDiagnosisSystem._should_terminate -/
def md_should_terminate (st : MDState) : Bool :=
  decide (st.max_rounds ≤ st.current_round)

/- Iterated observation of an unchanging opinion set, starting from the
   fresh state of __init__ (empty history, zero counter). -/
def fresh_state (ops : List DiagnosisOpinion) : MDState :=
  { active_opinions := ops
    last_opinions := []
    stagnation_count := 0
    current_round := 0
    max_rounds := 100 }

def iterate_check (st : MDState) : Nat → MDState
  | 0 => st
  | k + 1 => (check_stagnation (iterate_check st k)).2

/- ------------------------------------------------------------------ -/
/- C1 -/

/-- C1: for every round r ≥ 1 the reset schedule of referee A (phase 0)
is exactly the multiples of 5 and that of referee B (phase 2) is exactly
the rounds congruent to 2 mod 5; round 0 never resets any referee; and no
round makes both referees due simultaneously. -/
theorem c1_referee_reset_schedule :
    (∀ r : Int, 1 ≤ r →
      (should_reset_referee 0 r = true ↔ r % 5 = 0) ∧
      (should_reset_referee 2 r = true ↔ (r - 2) % 5 = 0)) ∧
    (∀ p : Int, should_reset_referee p 0 = false) ∧
    (∀ r : Int, ¬(should_reset_referee 0 r = true ∧ should_reset_referee 2 r = true)) := by
  refine ⟨?_, ?_, ?_⟩
  · intro r hr
    constructor
    · unfold should_reset_referee
      have h0 : ¬(r = 0) := by omega
      simp [h0]
    · unfold should_reset_referee
      have h0 : ¬(r = 0) := by omega
      have h2 : ¬((2 : Int) = 0) := by omega
      simp [h0, h2]
  · intro p
    unfold should_reset_referee
    simp
  · intro r h
    obtain ⟨hA, hB⟩ := h
    unfold should_reset_referee at hA hB
    by_cases h0 : r = 0
    · simp [h0] at hA
    · simp [h0] at hA hB
      omega

/-- Witness for C1 at concrete rounds 5, 7 and 0. -/
theorem c1_referee_reset_schedule_witness :
    should_reset_referee 0 5 = true ∧
    should_reset_referee 2 7 = true ∧
    should_reset_referee 3 0 = false := by
  refine ⟨?_, ?_, ?_⟩
  · exact (c1_referee_reset_schedule.1 5 (by norm_num)).1.mpr (by decide)
  · exact (c1_referee_reset_schedule.1 7 (by norm_num)).2.mpr (by decide)
  · exact c1_referee_reset_schedule.2.1 3

/- ------------------------------------------------------------------ -/
/- C4 helper lemmas -/

theorem check_stagnation_first (st : MDState)
    (h1 : st.active_opinions ≠ []) (h2 : st.last_opinions = []) :
    check_stagnation st =
      (false, { st with last_opinions := [opinions_signature st.active_opinions] }) := by
  have hlen : ¬(st.active_opinions.length = 0) := by
    simpa using h1
  simp [check_stagnation, hlen, h2]

theorem check_stagnation_repeat (st : MDState) (last : String)
    (h1 : st.active_opinions ≠ []) (h2 : st.last_opinions.getLast? = some last)
    (h3 : opinions_signature st.active_opinions = last) :
    check_stagnation st =
      (decide (stagnation_threshold ≤ st.stagnation_count + 1),
        { st with stagnation_count := st.stagnation_count + 1 }) := by
  have hlen : ¬(st.active_opinions.length = 0) := by
    simpa using h1
  simp [check_stagnation, hlen, h2, h3]

theorem check_stagnation_change (st : MDState) (last : String)
    (h1 : st.active_opinions ≠ []) (h2 : st.last_opinions.getLast? = some last)
    (h3 : opinions_signature st.active_opinions ≠ last) :
    check_stagnation st =
      (false, { st with stagnation_count := 0,
                        last_opinions := st.last_opinions ++ [opinions_signature st.active_opinions] }) := by
  have hlen : ¬(st.active_opinions.length = 0) := by
    simpa using h1
  simp [check_stagnation, hlen, h2, h3, stagnation_threshold]

theorem iterate_check_fresh (ops : List DiagnosisOpinion) (h : ops ≠ []) :
    ∀ k : Nat, iterate_check (fresh_state ops) (k + 1) =
      { fresh_state ops with last_opinions := [opinions_signature ops],
                             stagnation_count := k } := by
  intro k
  induction k with
  | zero =>
    show (check_stagnation (fresh_state ops)).2 =
      { fresh_state ops with last_opinions := [opinions_signature ops],
                             stagnation_count := 0 }
    rw [check_stagnation_first (fresh_state ops) h rfl]
    rfl
  | succ k ih =>
    show (check_stagnation (iterate_check (fresh_state ops) (k + 1))).2 =
      { fresh_state ops with last_opinions := [opinions_signature ops],
                             stagnation_count := k + 1 }
    rw [ih]
    rw [check_stagnation_repeat
      { fresh_state ops with last_opinions := [opinions_signature ops],
                             stagnation_count := k }
      (opinions_signature ops) h (by simp) rfl]

/- ------------------------------------------------------------------ -/
/- C4 -/

/-- C4: the stagnation detector stores the canonical signature and reports
"not stagnant" on the first observation; it increments its counter on a
repeated signature and reports stagnant exactly when the counter reaches
the threshold 10; it resets the counter to 0 and stores the new signature
on a changed signature; consequently, observing a fixed nonempty opinion
set repeatedly from a fresh state first reports stagnant at observation 11
(the 10th consecutive repeat) and not before. -/
theorem c4_stagnation_detector :
    (∀ st : MDState, st.active_opinions ≠ [] → st.last_opinions = [] →
      check_stagnation st =
        (false, { st with last_opinions := [opinions_signature st.active_opinions] })) ∧
    (∀ (st : MDState) (last : String), st.active_opinions ≠ [] →
      st.last_opinions.getLast? = some last →
      opinions_signature st.active_opinions = last →
      check_stagnation st =
        (decide (stagnation_threshold ≤ st.stagnation_count + 1),
          { st with stagnation_count := st.stagnation_count + 1 })) ∧
    (∀ (st : MDState) (last : String), st.active_opinions ≠ [] →
      st.last_opinions.getLast? = some last →
      opinions_signature st.active_opinions ≠ last →
      check_stagnation st =
        (false, { st with stagnation_count := 0,
                          last_opinions := st.last_opinions ++ [opinions_signature st.active_opinions] })) ∧
    (∀ ops : List DiagnosisOpinion, ops ≠ [] → ∀ k : Nat, 1 ≤ k →
      (check_stagnation (iterate_check (fresh_state ops) (k - 1))).1 = decide (11 ≤ k)) := by
  refine ⟨check_stagnation_first, check_stagnation_repeat, check_stagnation_change, ?_⟩
  intro ops h k hk
  match k, hk with
  | 1, _ =>
    show (check_stagnation (fresh_state ops)).1 = decide (11 ≤ 1)
    rw [check_stagnation_first (fresh_state ops) h rfl]
    rfl
  | (m + 2), _ =>
    show (check_stagnation (iterate_check (fresh_state ops) (m + 1))).1 = decide (11 ≤ m + 2)
    rw [iterate_check_fresh ops h m]
    rw [check_stagnation_repeat
      { fresh_state ops with last_opinions := [opinions_signature ops],
                             stagnation_count := m }
      (opinions_signature ops) h (by simp) rfl]
    show decide (stagnation_threshold ≤ m + 1) = decide (11 ≤ m + 2)
    rw [decide_eq_decide]
    unfold stagnation_threshold
    omega

/-- Witness for C4: a single fixed opinion observed repeatedly is reported
stagnant at the 11th observation (10th repeat) and not at the 10th. -/
theorem c4_stagnation_detector_witness :
    (check_stagnation (iterate_check
        (fresh_state [third_perspective_opinion "w"]) 10)).1 = decide (11 ≤ 11) ∧
    (check_stagnation (iterate_check
        (fresh_state [third_perspective_opinion "w"]) 9)).1 = decide (11 ≤ 10) := by
  constructor
  · exact c4_stagnation_detector.2.2.2 [third_perspective_opinion "w"] (by simp) 11 (by norm_num)
  · exact c4_stagnation_detector.2.2.2 [third_perspective_opinion "w"] (by simp) 10 (by norm_num)

/- ------------------------------------------------------------------ -/
/- C5 -/

/-- C5: when stagnation is signalled with exactly 2 distinct diagnosis
labels the handler forces termination (round counter jumps to the
maximum, so the termination check fires) without appending any opinion or
touching the stagnation counter; with 3 or more distinct labels it
appends exactly one new opinion and resets the stagnation counter to 0. -/
theorem c5_stagnation_handler :
    (∀ (st : MDState) (nt : String), unique_opinion_count st = 2 →
      handle_stagnation st nt = { st with current_round := st.max_rounds } ∧
      (handle_stagnation st nt).active_opinions = st.active_opinions ∧
      (handle_stagnation st nt).stagnation_count = st.stagnation_count ∧
      md_should_terminate (handle_stagnation st nt) = true) ∧
    (∀ (st : MDState) (nt : String), 3 ≤ unique_opinion_count st →
      (handle_stagnation st nt).active_opinions
        = st.active_opinions ++ [third_perspective_opinion nt] ∧
      (handle_stagnation st nt).stagnation_count = 0) := by
  constructor
  · intro st nt h
    refine ⟨?_, ?_, ?_, ?_⟩ <;> simp [handle_stagnation, h, md_should_terminate]
  · intro st nt h
    have h2 : ¬(unique_opinion_count st = 2) := by omega
    constructor <;> simp [handle_stagnation, h, h2, inject_third_perspective]

/-- Witness for C5 on concrete two-label and three-label states. -/
theorem c5_stagnation_handler_witness :
    md_should_terminate (handle_stagnation
      { active_opinions := [⟨"s1", "d1", 1, "r"⟩, ⟨"s2", "d2", 1, "r"⟩],
        last_opinions := [], stagnation_count := 10, current_round := 3,
        max_rounds := 100 } "t") = true ∧
    (handle_stagnation
      { active_opinions := [⟨"s1", "d1", 1, "r"⟩, ⟨"s2", "d2", 1, "r"⟩, ⟨"s3", "d3", 1, "r"⟩],
        last_opinions := [], stagnation_count := 10, current_round := 3,
        max_rounds := 100 } "t").stagnation_count = 0 := by
  constructor
  · exact (c5_stagnation_handler.1 _ "t" (by decide)).2.2.2
  · exact (c5_stagnation_handler.2 _ "t" (by decide)).2

/- ------------------------------------------------------------------ -/
/- C10 -/

/-- C10: when stagnation fires with at most one distinct diagnosis label
the handler does nothing at all (state unchanged, counter not reset), so
with the same signature still last-seen and the counter at or beyond the
threshold the stagnation check fires again on the next observation. -/
theorem c10_stagnation_handler_noop :
    (∀ (st : MDState) (nt : String), unique_opinion_count st ≤ 1 →
      handle_stagnation st nt = st) ∧
    (∀ (st : MDState) (nt : String), unique_opinion_count st ≤ 1 →
      st.active_opinions ≠ [] →
      st.last_opinions.getLast? = some (opinions_signature st.active_opinions) →
      stagnation_threshold ≤ st.stagnation_count →
      (check_stagnation (handle_stagnation st nt)).1 = true) := by
  have noop : ∀ (st : MDState) (nt : String), unique_opinion_count st ≤ 1 →
      handle_stagnation st nt = st := by
    intro st nt h
    have h2 : ¬(unique_opinion_count st = 2) := by omega
    have h3 : ¬(3 ≤ unique_opinion_count st) := by omega
    simp [handle_stagnation, h2, h3]
  refine ⟨noop, ?_⟩
  intro st nt h h1 h2 h3
  rw [noop st nt h]
  rw [check_stagnation_repeat st (opinions_signature st.active_opinions) h1 h2 rfl]
  simpa using by omega

/-- Witness for C10 on a concrete one-label stagnant state. -/
theorem c10_stagnation_handler_noop_witness :
    handle_stagnation
      { active_opinions := [⟨"s1", "d1", 1, "r"⟩],
        last_opinions := ["d1"], stagnation_count := 10, current_round := 3,
        max_rounds := 100 } "t" =
      { active_opinions := [⟨"s1", "d1", 1, "r"⟩],
        last_opinions := ["d1"], stagnation_count := 10, current_round := 3,
        max_rounds := 100 } ∧
    (check_stagnation (handle_stagnation
      { active_opinions := [⟨"s1", "d1", 1, "r"⟩],
        last_opinions := ["d1"], stagnation_count := 10, current_round := 3,
        max_rounds := 100 } "t")).1 = true := by
  constructor
  · exact c10_stagnation_handler_noop.1 _ "t" (by decide)
  · exact c10_stagnation_handler_noop.2 _ "t" (by decide) (by simp) (by decide) (by decide)

/- ------------------------------------------------------------------ -/
/- Grouping engine (multi_ai_medical_diagnosis.py,
   MultiAIDiagnosisSystem.create_circular_groups).  Doctors are
   identified by their index in `self.doctors`; only the AI provider of
   each doctor matters to the algorithm, so the input is the list of
   providers (encoded as naturals). -/

/- The candidate list `doc2_candidates` built for doctor `i`: offsets
   j = 1 .. n-1 in order, keeping indices that are not `i` and whose
   provider differs from doctor i's. -/
def doc2_candidates (provs : List Nat) (i : Nat) : List Nat :=
  ((List.range (provs.length - 1)).map (fun j => (i + (j + 1)) % provs.length)).filter
    (fun c => decide (c ≠ i) && decide (provs.getD c 0 ≠ provs.getD i 0))

/- The partner chosen for doctor `i`: head of the candidate list, or the
   fallback `(i + 1) % n` when the list is empty. -/
def choose_partner (provs : List Nat) (i : Nat) : Nat :=
  match doc2_candidates provs i with
  | c :: _ => c
  | [] => (i + 1) % provs.length

/- `tuple(sorted([i, doc2_idx]))` -/
def sortPair (p : Nat × Nat) : Nat × Nat :=
  if p.1 ≤ p.2 then p else (p.2, p.1)

/- One iteration of the `for i in range(n)` loop: the state is the pair
   (groups, used_pairs). -/
def groups_step (provs : List Nat) (st : List (Nat × Nat) × List (Nat × Nat)) (i : Nat) :
    List (Nat × Nat) × List (Nat × Nat) :=
  let d2 := choose_partner provs i
  let pair := sortPair (i, d2)
  if pair ∈ st.2 then st else (st.1 ++ [(i, d2)], st.2 ++ [pair])

def groups_state (provs : List Nat) (n : Nat) : List (Nat × Nat) × List (Nat × Nat) :=
  (List.range n).foldl (groups_step provs) ([], [])

def create_circular_groups (provs : List Nat) : List (Nat × Nat) :=
  (groups_state provs provs.length).1

/- Modelled from the spec wording of the claim (not from the source):
   the partner of doctor i is the first index (i+j) mod N, j scanned in
   order 1 .. N-1, whose provider differs from doctor i's, else
   (i+1) mod N.  Used to state the refinement conjunct of C2. -/
def claimed_partner (provs : List Nat) (i : Nat) : Nat :=
  ((List.range (provs.length - 1)).findSome? (fun j =>
    if decide (provs.getD ((i + (j + 1)) % provs.length) 0 ≠ provs.getD i 0) then
      some ((i + (j + 1)) % provs.length) else none)).getD
    ((i + 1) % provs.length)

/- The guarded variant: `if n < 2: raise ValueError(...)`. -/
def create_circular_groups_checked (provs : List Nat) : Except String (List (Nat × Nat)) :=
  if provs.length < 2 then
    Except.error ("At least 2 doctors are required to form groups, but only "
      ++ toString provs.length ++ " doctor(s) available")
  else
    Except.ok (create_circular_groups provs)

/- C2 helper lemmas -/

theorem sortPair_eq_cases (a b c d : Nat)
    (h : sortPair (a, b) = sortPair (c, d)) :
    (a = c ∧ b = d) ∨ (a = d ∧ b = c) := by
  unfold sortPair at h
  by_cases h1 : a ≤ b <;> by_cases h2 : c ≤ d <;>
    simp [h1, h2, Prod.ext_iff] at h <;> omega

theorem head_filter_map_eq_findSome (f : Nat → Nat) (p : Nat → Bool)
    (q : Nat → Bool) :
    ∀ l : List Nat, (∀ j ∈ l, p (f j) = q (f j)) →
      ((l.map f).filter p).head? =
        l.findSome? (fun j => if q (f j) then some (f j) else none) := by
  intro l
  induction l with
  | nil => intro _; rfl
  | cons a t ih =>
    intro h
    have ha : p (f a) = q (f a) := h a (List.mem_cons_self a t)
    have ht : ∀ j ∈ t, p (f j) = q (f j) := fun j hj => h j (List.mem_cons_of_mem a hj)
    by_cases hq : q (f a)
    · simp [List.findSome?, List.filter_cons, ha, hq]
    · simp only [List.map_cons, List.filter_cons, ha, hq, List.findSome?]
      simpa [hq] using ih ht

theorem add_mod_ne_self (i m n : Nat) (hi : i < n) (hm1 : 0 < m) (hm2 : m < n) :
    (i + m) % n ≠ i := by
  intro h
  rcases Nat.lt_or_ge (i + m) n with h1 | h1
  · rw [Nat.mod_eq_of_lt h1] at h
    omega
  · have h3 : i + m - n < n := by omega
    rw [Nat.mod_eq_sub_mod h1, Nat.mod_eq_of_lt h3] at h
    omega

theorem choose_partner_eq_claimed (provs : List Nat) (i : Nat)
    (hi : i < provs.length) :
    choose_partner provs i = claimed_partner provs i := by
  have hhead : (doc2_candidates provs i).head? =
      (List.range (provs.length - 1)).findSome? (fun j =>
        if decide (provs.getD ((i + (j + 1)) % provs.length) 0 ≠ provs.getD i 0) then
          some ((i + (j + 1)) % provs.length) else none) := by
    refine head_filter_map_eq_findSome
      (fun j => (i + (j + 1)) % provs.length)
      (fun c => decide (c ≠ i) && decide (provs.getD c 0 ≠ provs.getD i 0))
      (fun c => decide (provs.getD c 0 ≠ provs.getD i 0))
      (List.range (provs.length - 1)) ?_
    intro j hj
    have hj' : j < provs.length - 1 := List.mem_range.mp hj
    have hne : (i + (j + 1)) % provs.length ≠ i :=
      add_mod_ne_self i (j + 1) provs.length hi (by omega) (by omega)
    simp [hne]
  unfold choose_partner claimed_partner
  rw [← hhead]
  rcases hc : doc2_candidates provs i with _ | ⟨c, t⟩
  · simp
  · simp

/- The loop invariant for the fold building the groups. -/
def groups_inv (provs : List Nat) (k : Nat)
    (st : List (Nat × Nat) × List (Nat × Nat)) : Prop :=
  st.2 = st.1.map sortPair ∧
  (st.1.map sortPair).Nodup ∧
  (∀ i < k, ∃ g ∈ st.1, g.1 = i ∨ g.2 = i) ∧
  (∀ g ∈ st.1, g.2 = choose_partner provs g.1)

theorem groups_inv_step (provs : List Nat) (k : Nat)
    (st : List (Nat × Nat) × List (Nat × Nat)) (h : groups_inv provs k st) :
    groups_inv provs (k + 1) (groups_step provs st k) := by
  obtain ⟨h1, h2, h3, h4⟩ := h
  simp only [groups_step]
  by_cases hmem : sortPair (k, choose_partner provs k) ∈ st.2
  · rw [if_pos hmem]
    refine ⟨h1, h2, ?_, h4⟩
    intro i hik
    rcases Nat.lt_or_ge i k with hik' | hik'
    · exact h3 i hik'
    · have hik2 : i = k := by omega
      subst hik2
      rw [h1] at hmem
      obtain ⟨g, hg, hgs⟩ := List.mem_map.mp hmem
      rcases sortPair_eq_cases g.1 g.2 i (choose_partner provs i) (by simpa using hgs) with
        ⟨ha, _⟩ | ⟨_, hb⟩
      · exact ⟨g, hg, Or.inl ha⟩
      · exact ⟨g, hg, Or.inr hb⟩
  · rw [if_neg hmem]
    refine ⟨?_, ?_, ?_, ?_⟩
    · simp [h1]
    · rw [List.map_append]
      rw [List.nodup_append]
      refine ⟨h2, by simp, ?_⟩
      intro x hx
      simp only [List.map_cons, List.map_nil, List.mem_singleton]
      intro hx2
      rw [hx2] at hx
      rw [h1] at hmem
      exact hmem hx
    · intro i hik
      rcases Nat.lt_or_ge i k with hik' | hik'
      · obtain ⟨g, hg, hgi⟩ := h3 i hik'
        exact ⟨g, List.mem_append_left _ hg, hgi⟩
      · have hik2 : i = k := by omega
        subst hik2
        exact ⟨(i, choose_partner provs i), List.mem_append_right _ (by simp), Or.inl rfl⟩
    · intro g hg
      rcases List.mem_append.mp hg with hg' | hg'
      · exact h4 g hg'
      · simp only [List.mem_singleton] at hg'
        subst hg'
        rfl

theorem groups_state_inv (provs : List Nat) :
    ∀ n : Nat, groups_inv provs n (groups_state provs n) := by
  intro n
  induction n with
  | zero =>
    exact ⟨rfl, List.nodup_nil, by intro i hi; omega,
      by intro g hg; simp [groups_state] at hg⟩
  | succ n ih =>
    unfold groups_state
    rw [List.range_succ, List.foldl_append]
    exact groups_inv_step provs n _ ih

/- ------------------------------------------------------------------ -/
/- C2 -/

/-- C2: for N ≥ 2 doctors, create_circular_groups never emits the same
unordered pair twice, every doctor index occurs in some emitted group,
each emitted group pairs a doctor with its chosen partner, and the chosen
partner is exactly the first index (i+j) mod N (j = 1 .. N-1 in order)
with a different AI provider, falling back to (i+1) mod N. -/
theorem c2_create_circular_groups (provs : List Nat) (_h2 : 2 ≤ provs.length) :
    ((create_circular_groups provs).map sortPair).Nodup ∧
    (∀ i < provs.length, ∃ g ∈ create_circular_groups provs, g.1 = i ∨ g.2 = i) ∧
    (∀ g ∈ create_circular_groups provs, g.2 = choose_partner provs g.1) ∧
    (∀ i < provs.length, choose_partner provs i = claimed_partner provs i) := by
  obtain ⟨_, hnodup, hcover, hpartner⟩ := groups_state_inv provs provs.length
  exact ⟨hnodup, hcover, hpartner,
    fun i hi => choose_partner_eq_claimed provs i hi⟩

/-- Witness for C2 on the concrete provider list [0, 1, 0]. -/
theorem c2_create_circular_groups_witness :
    ((create_circular_groups [0, 1, 0]).map sortPair).Nodup ∧
    (∀ i < ([0, 1, 0] : List Nat).length,
      ∃ g ∈ create_circular_groups [0, 1, 0], g.1 = i ∨ g.2 = i) ∧
    choose_partner [0, 1, 0] 2 = claimed_partner [0, 1, 0] 2 := by
  have h := c2_create_circular_groups [0, 1, 0] (by decide)
  exact ⟨h.1, h.2.1, h.2.2.2 2 (by decide)⟩

/- ------------------------------------------------------------------ -/
/- C3 -/

/-- C3: with fewer than 2 doctors the grouping operation fails with the
insufficient-participants error and yields no groups; with 2 or more it
returns the groups and never fails. -/
theorem c3_insufficient_participants (provs : List Nat) :
    (provs.length < 2 →
      create_circular_groups_checked provs =
        Except.error ("At least 2 doctors are required to form groups, but only "
          ++ toString provs.length ++ " doctor(s) available")) ∧
    (2 ≤ provs.length →
      create_circular_groups_checked provs =
        Except.ok (create_circular_groups provs)) := by
  constructor
  · intro h
    simp [create_circular_groups_checked, h]
  · intro h
    have h' : ¬(provs.length < 2) := by omega
    simp [create_circular_groups_checked, h']

/-- Witness for C3: the empty pool fails, a pool of two succeeds. -/
theorem c3_insufficient_participants_witness :
    create_circular_groups_checked [] =
      Except.error ("At least 2 doctors are required to form groups, but only "
        ++ toString ([] : List Nat).length ++ " doctor(s) available") ∧
    create_circular_groups_checked [0, 1] =
      Except.ok (create_circular_groups [0, 1]) := by
  exact ⟨(c3_insufficient_participants []).1 (by decide),
         (c3_insufficient_participants [0, 1]).2 (by decide)⟩

/- ------------------------------------------------------------------ -/
/- Consensus parsing (multi_ai_medical_diagnosis.py, _conduct_debate,
   the try-block deciding `consensus_reached` from the referee text).
   The two `re.search` calls and `json.loads` are embedded operationally
   over `List Char`.  Characters that the gate treats specially are
   constructed from their code points. -/

def lbrace : Char := Char.ofNat 123
def rbrace : Char := Char.ofNat 125
def dquote : Char := Char.ofNat 34
def squote : Char := Char.ofNat 39
def btick : Char := Char.ofNat 96

/- Python `\s` over the ASCII range. -/
def isPyWs (c : Char) : Bool :=
  c = ' ' || c = '\t' || c = '\n' || c = '\r' || c = Char.ofNat 11 || c = Char.ofNat 12

def ciEqChar (a b : Char) : Bool := a.toLower = b.toLower

def startsWithCI : List Char → List Char → Bool
  | [], _ => true
  | _ :: _, [] => false
  | n :: ns, h :: hs => ciEqChar n h && startsWithCI ns hs

def startsWithExact : List Char → List Char → Bool
  | [], _ => true
  | _ :: _, [] => false
  | n :: ns, h :: hs => n == h && startsWithExact ns hs

def containsSub (needle : List Char) : List Char → Bool
  | [] => startsWithExact needle []
  | c :: rest => startsWithExact needle (c :: rest) || containsSub needle rest

def wsPrefLen : List Char → Nat
  | [] => 0
  | c :: rest => if isPyWs c then wsPrefLen rest + 1 else 0

def dropWsLeft : List Char → List Char
  | [] => []
  | c :: r => if isPyWs c then dropWsLeft r else c :: r

/- Python str.strip() -/
def stripWs (cs : List Char) : List Char :=
  (dropWsLeft (dropWsLeft cs).reverse).reverse

/- `re.search(r'```json\s*\n(.*?)\n```', text, DOTALL | IGNORECASE)`:
   leftmost match, greedy `\s*` with backtracking, lazy capture up to the
   first closing fence. -/

def fenceOpen : List Char := [btick, btick, btick, 'j', 's', 'o', 'n']
def fenceClose : List Char := ['\n', btick, btick, btick]

def captureToClose : List Char → Option (List Char)
  | [] => none
  | c :: rest =>
    if startsWithExact fenceClose (c :: rest) then some []
    else
      match captureToClose rest with
      | some cap => some (c :: cap)
      | none => none

def fenceAttemptAt (rest : List Char) (k : Nat) : Option (List Char) :=
  match rest.drop k with
  | c :: r2 => if c = '\n' then captureToClose r2 else none
  | [] => none

def tryFenceTail (rest : List Char) : Nat → Option (List Char)
  | 0 => fenceAttemptAt rest 0
  | k + 1 =>
    match fenceAttemptAt rest (k + 1) with
    | some cap => some cap
    | none => tryFenceTail rest k

def fenceMatchAt (cs : List Char) : Option (List Char) :=
  if startsWithCI fenceOpen cs then
    tryFenceTail (cs.drop 7) (wsPrefLen (cs.drop 7))
  else none

def findFenced : List Char → Option (List Char)
  | [] => none
  | c :: rest =>
    match fenceMatchAt (c :: rest) with
    | some cap => some cap
    | none => findFenced rest

/- `re.search(r'\{[^}]*["\x27]?consensus_reached["\x27]?\s*:\s*(true|false)[^}]*\}',
   json_text, IGNORECASE)`: the match runs from a left brace to the first
   right brace after it (no right brace may occur inside), and the body
   must contain the optionally-quoted key, a colon with surrounding
   whitespace, and a true/false literal, all case-insensitive. -/

def keyChars : List Char := "consensus_reached".data
def trueChars : List Char := "true".data
def falseChars : List Char := "false".data

def takeToRBrace : List Char → Option (List Char)
  | [] => none
  | c :: rest =>
    if c = rbrace then some []
    else
      match takeToRBrace rest with
      | some body => some (c :: body)
      | none => none

def dropOptQuote : List Char → List Char
  | [] => []
  | c :: rest => if c = dquote || c = squote then rest else c :: rest

def keyBoolAt (cs : List Char) : Bool :=
  let cs1 := dropOptQuote cs
  if startsWithCI keyChars cs1 then
    let cs3 := dropWsLeft (dropOptQuote (cs1.drop 17))
    match cs3 with
    | c :: cs4 =>
      if c = ':' then
        let cs5 := dropWsLeft cs4
        startsWithCI trueChars cs5 || startsWithCI falseChars cs5
      else false
    | [] => false
  else false

def containsKeyBool : List Char → Bool
  | [] => keyBoolAt []
  | c :: rest => keyBoolAt (c :: rest) || containsKeyBool rest

def jsonObjMatchAt (cs : List Char) : Option (List Char) :=
  match cs with
  | c :: rest =>
    if c = lbrace then
      match takeToRBrace rest with
      | some body => if containsKeyBool body then some (lbrace :: body ++ [rbrace]) else none
      | none => none
    else none
  | [] => none

def findJsonObj : List Char → Option (List Char)
  | [] => none
  | c :: rest =>
    match jsonObjMatchAt (c :: rest) with
    | some m => some m
    | none => findJsonObj rest

/- Strict JSON decoding, as done by `json.loads(json_str)`.  Number
   lexemes are kept as strings (the decoded value is only ever used for
   its truthiness). -/

inductive JVal where
  | null : JVal
  | bool : Bool → JVal
  | num : String → JVal
  | str : String → JVal
  | arr : List JVal → JVal
  | obj : List (String × JVal) → JVal
  deriving Repr

def isJsonWs (c : Char) : Bool :=
  c = ' ' || c = '\t' || c = '\n' || c = '\r'

def skipJsonWs : List Char → List Char
  | [] => []
  | c :: r => if isJsonWs c then skipJsonWs r else c :: r

def unescapeChar (e : Char) : Option Char :=
  if e = dquote then some dquote
  else if e = '\\' then some '\\'
  else if e = '/' then some '/'
  else if e = 'b' then some (Char.ofNat 8)
  else if e = 'f' then some (Char.ofNat 12)
  else if e = 'n' then some '\n'
  else if e = 'r' then some '\r'
  else if e = 't' then some '\t'
  else none

def hexVal (c : Char) : Option Nat :=
  if c.isDigit then some (c.toNat - 48)
  else if 'a' ≤ c && c ≤ 'f' then some (c.toNat - 87)
  else if 'A' ≤ c && c ≤ 'F' then some (c.toNat - 55)
  else none

def parseJsonStringBody : Nat → List Char → Option (List Char × List Char)
  | 0, _ => none
  | _ + 1, [] => none
  | fuel + 1, c :: rest =>
    if c = dquote then some ([], rest)
    else if c = '\\' then
      match rest with
      | 'u' :: h1 :: h2 :: h3 :: h4 :: r2 =>
        match hexVal h1, hexVal h2, hexVal h3, hexVal h4 with
        | some a, some b, some g, some d =>
          match parseJsonStringBody fuel r2 with
          | some (body, r3) => some (Char.ofNat (((a * 16 + b) * 16 + g) * 16 + d) :: body, r3)
          | none => none
        | _, _, _, _ => none
      | e :: r2 =>
        match unescapeChar e with
        | some ch =>
          match parseJsonStringBody fuel r2 with
          | some (body, r3) => some (ch :: body, r3)
          | none => none
        | none => none
      | [] => none
    else if c.toNat < 32 then none
    else
      match parseJsonStringBody fuel rest with
      | some (body, r3) => some (c :: body, r3)
      | none => none

def spanDigits : List Char → List Char × List Char
  | [] => ([], [])
  | c :: r =>
    if c.isDigit then
      match spanDigits r with
      | (d, rest) => (c :: d, rest)
    else ([], c :: r)

/- strict JSON number grammar: -?(0|[1-9][0-9]*)(\.[0-9]+)?([eE][+-]?[0-9]+)? -/
def parseJsonNumber (cs : List Char) : Option (List Char × List Char) :=
  let (sign, cs1) :=
    match cs with
    | c :: r => if c = '-' then (([c] : List Char), r) else (([] : List Char), cs)
    | [] => ([], cs)
  match cs1 with
  | [] => none
  | c :: r =>
    if !c.isDigit then none
    else
      let (ipart, cs2) :=
        if c = '0' then (([c] : List Char), r)
        else
          match spanDigits r with
          | (d, rest) => (c :: d, rest)
      let (fpart, cs3) :=
        match cs2 with
        | p :: r2 =>
          if p = '.' then
            match spanDigits r2 with
            | ([], _) => (([] : List Char), none)
            | (d, rest) => (p :: d, some rest)
          else ([], some cs2)
        | [] => ([], some cs2)
      match cs3 with
      | none => none
      | some cs3' =>
        let (epart, cs4) :=
          match cs3' with
          | e :: r2 =>
            if e = 'e' || e = 'E' then
              let (esign, r3) :=
                match r2 with
                | s :: r4 => if s = '+' || s = '-' then (([s] : List Char), r4) else ([], r2)
                | [] => ([], r2)
              match spanDigits r3 with
              | ([], _) => (([] : List Char), none)
              | (d, rest) => (e :: esign ++ d, some rest)
            else ([], some cs3')
          | [] => ([], some cs3')
        match cs4 with
        | none => none
        | some cs4' => some (sign ++ ipart ++ fpart ++ epart, cs4')

mutual

def parseJVal : Nat → List Char → Option (JVal × List Char)
  | 0, _ => none
  | fuel + 1, cs =>
    match cs with
    | [] => none
    | c :: rest =>
      if c = dquote then
        match parseJsonStringBody (rest.length + 1) rest with
        | some (body, r2) => some (JVal.str (String.mk body), r2)
        | none => none
      else if c = lbrace then parseJObj fuel (skipJsonWs rest)
      else if c = '[' then parseJArr fuel (skipJsonWs rest)
      else if startsWithExact trueChars cs then some (JVal.bool true, cs.drop 4)
      else if startsWithExact falseChars cs then some (JVal.bool false, cs.drop 5)
      else if startsWithExact ("null".data) cs then some (JVal.null, cs.drop 4)
      else
        match parseJsonNumber cs with
        | some (lex, r2) => some (JVal.num (String.mk lex), r2)
        | none => none

/- after the opening brace, whitespace already skipped -/
def parseJObj : Nat → List Char → Option (JVal × List Char)
  | 0, _ => none
  | fuel + 1, cs =>
    match cs with
    | c :: rest =>
      if c = rbrace then some (JVal.obj [], rest)
      else parseJMembers fuel cs []
    | [] => none

def parseJMembers : Nat → List Char → List (String × JVal) → Option (JVal × List Char)
  | 0, _, _ => none
  | fuel + 1, cs, acc =>
    match cs with
    | c :: rest =>
      if c = dquote then
        match parseJsonStringBody (rest.length + 1) rest with
        | some (key, r2) =>
          match skipJsonWs r2 with
          | colon :: r3 =>
            if colon = ':' then
              match parseJVal fuel (skipJsonWs r3) with
              | some (v, r4) =>
                match skipJsonWs r4 with
                | sep :: r5 =>
                  if sep = ',' then
                    parseJMembers fuel (skipJsonWs r5) (acc ++ [(String.mk key, v)])
                  else if sep = rbrace then
                    some (JVal.obj (acc ++ [(String.mk key, v)]), r5)
                  else none
                | [] => none
              | none => none
            else none
          | [] => none
        | none => none
      else none
    | [] => none

/- after the opening bracket, whitespace already skipped -/
def parseJArr : Nat → List Char → Option (JVal × List Char)
  | 0, _ => none
  | fuel + 1, cs =>
    match cs with
    | c :: rest =>
      if c = ']' then some (JVal.arr [], rest)
      else parseJItems fuel cs []
    | [] => none

def parseJItems : Nat → List Char → List JVal → Option (JVal × List Char)
  | 0, _, _ => none
  | fuel + 1, cs, acc =>
    match parseJVal fuel cs with
    | some (v, r2) =>
      match skipJsonWs r2 with
      | sep :: r3 =>
        if sep = ',' then parseJItems fuel (skipJsonWs r3) (acc ++ [v])
        else if sep = ']' then some (JVal.arr (acc ++ [v]), r3)
        else none
      | [] => none
    | none => none

end

def json_loads (cs : List Char) : Option JVal :=
  let cs1 := skipJsonWs cs
  match parseJVal (cs1.length + 1) cs1 with
  | some (v, rest) => if (skipJsonWs rest).isEmpty then some v else none
  | none => none

/- Python truthiness of a decoded JSON value. -/
def numIsZero (s : String) : Bool :=
  ((s.data.takeWhile (fun c => !(c = 'e' || c = 'E'))).filter Char.isDigit).all
    (fun c => c = '0')

def jvalTruthy : JVal → Bool
  | JVal.null => false
  | JVal.bool b => b
  | JVal.num s => !(numIsZero s)
  | JVal.str s => !s.isEmpty
  | JVal.arr l => !l.isEmpty
  | JVal.obj l => !l.isEmpty

/- Python dict semantics: later duplicate keys win; `data.get(key, False)`. -/
def lookupLast (l : List (String × JVal)) (k : String) : Option JVal :=
  match l with
  | [] => none
  | (k2, v) :: rest =>
    match lookupLast rest k with
    | some v2 => some v2
    | none => if k2 = k then some v else none

def data_get_consensus (members : List (String × JVal)) : JVal :=
  (lookupLast members "consensus_reached").getD (JVal.bool false)

/- `re.search(r'(true|false)', json_str, IGNORECASE)` then compare the
   lowered match with "true". -/
def firstTrueFalseCI : List Char → Option Bool
  | [] => none
  | c :: rest =>
    if startsWithCI trueChars (c :: rest) then some true
    else if startsWithCI falseChars (c :: rest) then some false
    else firstTrueFalseCI rest

/- The free-text fallback phrasings, exactly the lists in the source. -/
def negatives_en : List String :=
  ["not reached", "not yet reached", "not achieved",
   "no consensus", "has not been reached", "consensus is not"]
def negatives_kr : List String :=
  ["도달하지 못", "합의되지 않", "합의 안", "아직 합의"]
def positives_en : List String :=
  ["consensus reached", "consensus achieved",
   "consensus has been reached", "reached consensus"]
def positives_kr : List String :=
  ["합의에 도달", "합의가 달성", "합의 도달"]

def is_negative (cs : List Char) : Bool :=
  let lower := cs.map Char.toLower
  negatives_en.any (fun n => containsSub n.data lower) ||
  negatives_kr.any (fun n => containsSub n.data cs)

def is_positive (cs : List Char) : Bool :=
  let lower := cs.map Char.toLower
  positives_en.any (fun p => containsSub p.data lower) ||
  positives_kr.any (fun p => containsSub p.data cs)

/- `json_text`: fenced-block content (stripped) when a fenced block is
   found, else the whole referee text. -/
def json_target (cs : List Char) : List Char :=
  match findFenced cs with
  | some cap => stripWs cap
  | none => cs

/- The body of the try-block. -/
def parse_consensus_core (cs : List Char) : Bool :=
  match findJsonObj (json_target cs) with
  | some m =>
    match json_loads m with
    | some (JVal.obj members) => jvalTruthy (data_get_consensus members)
    | some _ => false
    | none =>
      match firstTrueFalseCI m with
      | some b => b
      | none => false
  | none =>
    if is_negative cs then false else is_positive cs

/- `except Exception: consensus_reached = False`. -/
def run_parse (r : Except String Bool) : Bool :=
  match r with
  | Except.ok b => b
  | Except.error _ => false

def parse_consensus (s : String) : Bool :=
  run_parse (Except.ok (parse_consensus_core s.data))

/- ------------------------------------------------------------------ -/
/- C7 -/

/-- C7 counterexample: the inline case-insensitive search does find the
JSON object whose consensus_reached field (key matched case-insensitively)
carries the boolean value true, yet the parser returns false, because the
strict JSON decode succeeds and the exact-lowercase key lookup misses.
So the found field's boolean value is not authoritative as claimed. -/
theorem c7_consensus_parsing_counterexample :
    findFenced ("\x7b\"CONSENSUS_REACHED\": true\x7d".data) = none ∧
    findJsonObj (json_target ("\x7b\"CONSENSUS_REACHED\": true\x7d".data)) =
      some ("\x7b\"CONSENSUS_REACHED\": true\x7d".data) ∧
    firstTrueFalseCI ("\x7b\"CONSENSUS_REACHED\": true\x7d".data) = some true ∧
    parse_consensus "\x7b\"CONSENSUS_REACHED\": true\x7d" = false :=
  ⟨rfl, rfl, rfl, rfl⟩

/-- C7 (amended): fenced-block content is searched first, else the raw
text; when the case-insensitive search finds an object and strict JSON
decoding succeeds, the result is the truthiness of the exact-lowercase
key "consensus_reached" (false when absent); only when strict decoding
fails is the first true/false extracted case-insensitively; the input
with consensus_reached true inside a fenced block yields true. -/
theorem c7_consensus_parsing (s : String) :
    (∀ (b m : List Char) (members : List (String × JVal)),
      findFenced s.data = some b →
      findJsonObj (stripWs b) = some m →
      json_loads m = some (JVal.obj members) →
      parse_consensus s =
        jvalTruthy ((lookupLast members "consensus_reached").getD (JVal.bool false))) ∧
    (∀ (m : List Char) (members : List (String × JVal)),
      findFenced s.data = none →
      findJsonObj s.data = some m →
      json_loads m = some (JVal.obj members) →
      parse_consensus s =
        jvalTruthy ((lookupLast members "consensus_reached").getD (JVal.bool false))) ∧
    (∀ m : List Char,
      findJsonObj (json_target s.data) = some m →
      json_loads m = none →
      parse_consensus s = (firstTrueFalseCI m).getD false) ∧
    parse_consensus "```json\n\x7b\"consensus_reached\": true\x7d\n```" = true := by
  refine ⟨?_, ?_, ?_, rfl⟩
  · intro b m members h1 h2 h3
    simp [parse_consensus, run_parse, parse_consensus_core, json_target, h1, h2, h3,
      data_get_consensus]
  · intro m members h1 h2 h3
    simp [parse_consensus, run_parse, parse_consensus_core, json_target, h1, h2, h3,
      data_get_consensus]
  · intro m h1 h2
    simp only [parse_consensus, run_parse, parse_consensus_core, h1, h2]
    cases firstTrueFalseCI m <;> rfl

/-- Witness for C7 (amended) on the fenced concrete input. -/
theorem c7_consensus_parsing_witness :
    parse_consensus "```json\n\x7b\"consensus_reached\": true\x7d\n```" =
      jvalTruthy ((lookupLast [("consensus_reached", JVal.bool true)]
        "consensus_reached").getD (JVal.bool false)) :=
  (c7_consensus_parsing "```json\n\x7b\"consensus_reached\": true\x7d\n```").1
    ("\x7b\"consensus_reached\": true\x7d".data)
    ("\x7b\"consensus_reached\": true\x7d".data)
    [("consensus_reached", JVal.bool true)] rfl rfl rfl

/- ------------------------------------------------------------------ -/
/- C8 -/

/-- C8: when no JSON object is found, negative phrasings take precedence
over positive ones: a text with a negative phrasing parses as false even
when a positive phrasing is also present, otherwise the result is the
positive-phrasing test (so text with no recognizable phrasing gives
false); and the surrounding exception handler maps every failure to
false. -/
theorem c8_fallback_phrasings (s : String) :
    (findJsonObj (json_target s.data) = none →
      (is_negative s.data = true → parse_consensus s = false) ∧
      (is_negative s.data = false → parse_consensus s = is_positive s.data)) ∧
    (∀ e : String, run_parse (Except.error e) = false) := by
  constructor
  · intro h
    constructor
    · intro hneg
      simp [parse_consensus, run_parse, parse_consensus_core, h, hneg]
    · intro hneg
      simp [parse_consensus, run_parse, parse_consensus_core, h, hneg]
  · intro e
    rfl

/-- Witness for C8: a text containing both "not reached" and "reached"
parses as false, a text with no phrasing parses as false, and an error
outcome parses as false. -/
theorem c8_fallback_phrasings_witness :
    parse_consensus "consensus not reached but consensus reached" = false ∧
    parse_consensus "hello doctors" = false ∧
    run_parse (Except.error "boom") = false := by
  refine ⟨?_, ?_, ?_⟩
  · exact ((c8_fallback_phrasings "consensus not reached but consensus reached").1 rfl).1 rfl
  · have h := ((c8_fallback_phrasings "hello doctors").1 rfl).2 rfl
    rw [h]
    rfl
  · exact (c8_fallback_phrasings "x").2 "boom"

/- ------------------------------------------------------------------ -/
/- Debate loop (multi_ai_medical_diagnosis.py, _conduct_debate).  The
   external AI calls are an oracle: the referee's textual answer and the
   doctors' opinions and search lists depend only on the round number.
   A referee's Python object carries its ai_client (modelled as a numeric
   handle: a reset installs a freshly constructed client) and its private
   memory list. -/

structure MemEntry where
  round : Nat
  diagnoses_summary : String
  referee_feedback : String
  consensus : Bool
  was_reset : Bool
  deriving DecidableEq, Repr

structure RefereeM where
  name : String
  initialization_round : Int
  ai_client : Nat
  memory : List MemEntry
  deriving DecidableEq, Repr

/- MultiAIDiagnosisSystem.reset_referee: a fresh client handle and an
   emptied memory. -/
def reset_referee (ref : RefereeM) (newClient : Nat) : RefereeM :=
  { ref with ai_client := newClient, memory := [] }

structure Oracle where
  refereeResponse : Nat → String
  groupOpinions : Nat → List (String × String)
  docSearchCount : Nat → Nat
  refSearchCount : Nat → Nat

structure DebateState where
  refA : RefereeM
  refB : RefereeM
  nextClient : Nat
  searchCount : Nat
  deriving Repr

def init_debate_state : DebateState :=
  { refA := { name := "Referee A", initialization_round := 0, ai_client := 0, memory := [] }
    refB := { name := "Referee B", initialization_round := 2, ai_client := 1, memory := [] }
    nextClient := 2
    searchCount := 0 }

/- `", ".join(f"Group {g}: {op1[:150]}")` over the round's opinions. -/
def mkDiagSummary (ops : List (String × String)) : String :=
  String.intercalate ", " ((List.range ops.length).map
    (fun k => "Group " ++ toString (k + 1) ++ ": " ++ ((ops.getD k ("", "")).1.take 150)))

/- One round of the loop body: reset referees that are due (in list
   order A, B), let the active referee `referees[round % 2]` judge, parse
   consensus, and append the round record to the active referee's private
   memory only.  Returns the new state and the consensus flag. -/
def run_round (oracle : Oracle) (r : Nat) (s : DebateState) : DebateState × Bool :=
  let dueA := should_reset_referee s.refA.initialization_round (r : Int)
  let refA1 := if dueA then reset_referee s.refA s.nextClient else s.refA
  let nc1 := if dueA then s.nextClient + 1 else s.nextClient
  let dueB := should_reset_referee s.refB.initialization_round (r : Int)
  let refB1 := if dueB then reset_referee s.refB nc1 else s.refB
  let nc2 := if dueB then nc1 + 1 else nc1
  let activeIsA := active_referee_index r = 0
  let response := oracle.refereeResponse r
  let consensus := parse_consensus response
  let entry : MemEntry :=
    { round := r
      diagnoses_summary := mkDiagSummary (oracle.groupOpinions r)
      referee_feedback := response
      consensus := consensus
      was_reset := if activeIsA then dueA else dueB }
  let refA2 := if activeIsA then { refA1 with memory := refA1.memory ++ [entry] } else refA1
  let refB2 := if activeIsA then refB1 else { refB1 with memory := refB1.memory ++ [entry] }
  ({ refA := refA2, refB := refB2, nextClient := nc2,
     searchCount := s.searchCount + oracle.docSearchCount r + oracle.refSearchCount r },
   consensus)

/- `for round_num in range(1, max_rounds + 1)` with the two break points:
   consensus, then the round cap.  The fuel equals the number of rounds
   still allowed, so it never runs out before the cap check fires. -/
def debate_loop (oracle : Oracle) (maxRounds : Nat) : Nat → Nat → DebateState → Nat × DebateState
  | 0, r, s => (r, s)
  | fuel + 1, r, s =>
    let s1 := (run_round oracle r s).1
    if (run_round oracle r s).2 then (r, s1)
    else if maxRounds ≤ r then (r, s1)
    else debate_loop oracle maxRounds fuel (r + 1) s1

def conduct_debate (oracle : Oracle) (maxRounds : Nat) : Nat × DebateState :=
  debate_loop oracle maxRounds maxRounds 1 init_debate_state

/- `sum(1 for r in 1..round_num for ref in referees if should_reset_referee(ref, r))` -/
def count_referee_resets (roundNum : Nat) : Nat :=
  ((List.range roundNum).map (fun k =>
    (if should_reset_referee 0 ((k + 1 : Nat) : Int) then 1 else 0) +
    (if should_reset_referee 2 ((k + 1 : Nat) : Int) then 1 else 0))).sum

/- The result dictionary literal at the end of _conduct_debate, embedded
   as an ordered key/value list so that the set of keys is observable. -/
inductive ResultValue where
  | str : String → ResultValue
  | nat : Nat → ResultValue
  | strList : List String → ResultValue
  | opList : List (String × String) → ResultValue
  deriving DecidableEq, Repr

def dedup_keep_first (l : List String) : List String :=
  l.foldl (fun acc d => if d ∈ acc then acc else acc ++ [d]) []

def conduct_debate_result (oracle : Oracle) (patient : String) (models : List String)
    (maxRounds : Nat) : List (String × ResultValue) :=
  let out := conduct_debate oracle maxRounds
  [("patient", ResultValue.str patient),
   ("diagnoses", ResultValue.opList (oracle.groupOpinions out.1)),
   ("total_searches", ResultValue.nat out.2.searchCount),
   ("rounds", ResultValue.nat out.1),
   ("ai_models_used", ResultValue.strList (dedup_keep_first models)),
   ("referee_resets", ResultValue.nat (count_referee_resets out.1))]

/- A concrete session: two doctors, every referee response is the
   consensus JSON object, no web searches. -/
def oracle_const : Oracle :=
  { refereeResponse := fun _ => "\x7b\"consensus_reached\": true\x7d"
    groupOpinions := fun _ => [("op one", "op two")]
    docSearchCount := fun _ => 0
    refSearchCount := fun _ => 0 }

/- C6 helper: with consensus parsed at round 1 the loop exits there. -/
theorem conduct_debate_round1 (oracle : Oracle) (maxRounds : Nat)
    (h1 : 1 ≤ maxRounds) (h2 : parse_consensus (oracle.refereeResponse 1) = true) :
    conduct_debate oracle maxRounds = (1, (run_round oracle 1 init_debate_state).1) := by
  obtain ⟨m, rfl⟩ : ∃ m, maxRounds = m + 1 := ⟨maxRounds - 1, by omega⟩
  have hc : (run_round oracle 1 init_debate_state).2 = true := h2
  unfold conduct_debate
  rw [debate_loop, hc]
  simp

/- ------------------------------------------------------------------ -/
/- C6 -/

/-- C6 counterexample: in the all-consensus session (every referee
response is the consensus JSON) the result record does end at round 1,
but no entry of the record carries any termination-reason value
CONSENSUS, MAX_ROUNDS or FORCED_TERMINATION — the record has no
termination-reason field at all, contradicting the claim. -/
theorem c6_result_record_counterexample :
    ("rounds", ResultValue.nat 1) ∈
      conduct_debate_result oracle_const "case" ["m1", "m2"] 100 ∧
    (∀ kv ∈ conduct_debate_result oracle_const "case" ["m1", "m2"] 100,
      kv.2 ≠ ResultValue.str "CONSENSUS" ∧
      kv.2 ≠ ResultValue.str "MAX_ROUNDS" ∧
      kv.2 ≠ ResultValue.str "FORCED_TERMINATION") := by
  decide

/-- C6 (amended): the result record contains exactly the fields patient,
diagnoses, total_searches, rounds, ai_models_used and referee_resets (no
termination-reason field); in a session whose every referee-check
response parses as consensus the record reports round count 1 and zero
referee resets, and no field except the patient one carries a string
value, so in particular none carries a termination reason. -/
theorem c6_result_record (oracle : Oracle) (patient : String) (models : List String)
    (maxRounds : Nat) (h1 : 1 ≤ maxRounds)
    (h2 : ∀ r : Nat, parse_consensus (oracle.refereeResponse r) = true) :
    (conduct_debate_result oracle patient models maxRounds).map Prod.fst =
      ["patient", "diagnoses", "total_searches", "rounds", "ai_models_used",
       "referee_resets"] ∧
    ("rounds", ResultValue.nat 1) ∈ conduct_debate_result oracle patient models maxRounds ∧
    ("referee_resets", ResultValue.nat 0) ∈
      conduct_debate_result oracle patient models maxRounds ∧
    (∀ kv ∈ conduct_debate_result oracle patient models maxRounds,
      kv.1 ≠ "patient" → ∀ txt : String, kv.2 ≠ ResultValue.str txt) := by
  have hd := conduct_debate_round1 oracle maxRounds h1 (h2 1)
  unfold conduct_debate_result
  rw [hd]
  refine ⟨rfl, by simp, ?_, ?_⟩
  · have hcount : count_referee_resets 1 = 0 := rfl
    simp [hcount]
  · intro kv hkv hne txt
    simp only [List.mem_cons, List.not_mem_nil, or_false] at hkv
    rcases hkv with h | h | h | h | h | h <;> subst h <;> simp_all

/-- Witness for C6 (amended) on the concrete all-consensus oracle. -/
theorem c6_result_record_witness :
    ("rounds", ResultValue.nat 1) ∈
      conduct_debate_result oracle_const "case" ["m1", "m1"] 5 ∧
    ("referee_resets", ResultValue.nat 0) ∈
      conduct_debate_result oracle_const "case" ["m1", "m1"] 5 := by
  have h := c6_result_record oracle_const "case" ["m1", "m1"] 5 (by norm_num)
    (fun _ => rfl)
  exact ⟨h.2.1, h.2.2.1⟩

/- ------------------------------------------------------------------ -/
/- C9 -/

def mem_rounds_ok (parity : Nat) (bound : Nat) (mem : List MemEntry) : Prop :=
  mem.Pairwise (fun a b => a.round < b.round) ∧
  ∀ e ∈ mem, e.round < bound ∧ e.round % 2 = parity

theorem mem_rounds_ok_nil (parity bound : Nat) : mem_rounds_ok parity bound [] :=
  ⟨List.Pairwise.nil, by intro e he; simp at he⟩

theorem mem_rounds_ok_weaken (parity b b' : Nat) (mem : List MemEntry)
    (h : mem_rounds_ok parity b mem) (hb : b ≤ b') : mem_rounds_ok parity b' mem := by
  obtain ⟨h1, h2⟩ := h
  exact ⟨h1, fun e he => ⟨by have := (h2 e he).1; omega, (h2 e he).2⟩⟩

theorem mem_rounds_ok_append (parity r : Nat) (mem : List MemEntry) (e : MemEntry)
    (h : mem_rounds_ok parity r mem) (he1 : e.round = r) (he2 : e.round % 2 = parity) :
    mem_rounds_ok parity (r + 1) (mem ++ [e]) := by
  obtain ⟨h1, h2⟩ := h
  constructor
  · rw [List.pairwise_append]
    refine ⟨h1, List.pairwise_singleton _ _, ?_⟩
    intro a ha b hb
    simp only [List.mem_singleton] at hb
    subst hb
    have := (h2 a ha).1
    omega
  · intro x hx
    rcases List.mem_append.mp hx with hx' | hx'
    · have := h2 x hx'
      exact ⟨by omega, this.2⟩
    · simp only [List.mem_singleton] at hx'
      subst hx'
      exact ⟨by omega, he2⟩

theorem run_round_mem_ok (oracle : Oracle) (r : Nat) (s : DebateState)
    (hA : mem_rounds_ok 0 r s.refA.memory) (hB : mem_rounds_ok 1 r s.refB.memory) :
    mem_rounds_ok 0 (r + 1) ((run_round oracle r s).1.refA.memory) ∧
    mem_rounds_ok 1 (r + 1) ((run_round oracle r s).1.refB.memory) := by
  simp only [run_round]
  by_cases hpar : active_referee_index r = 0
  · rw [if_pos hpar, if_pos hpar, if_pos hpar]
    constructor
    · by_cases hdueA : should_reset_referee s.refA.initialization_round (r : Int) = true
      · rw [if_pos hdueA]
        exact mem_rounds_ok_append 0 r [] _ (mem_rounds_ok_nil 0 r) rfl
          (by unfold active_referee_index at hpar; simpa using hpar)
      · rw [if_neg hdueA]
        exact mem_rounds_ok_append 0 r s.refA.memory _ hA rfl
          (by unfold active_referee_index at hpar; simpa using hpar)
    · by_cases hdueB : should_reset_referee s.refB.initialization_round (r : Int) = true
      · rw [if_pos hdueB]
        exact mem_rounds_ok_weaken 1 r (r + 1) [] (mem_rounds_ok_nil 1 r) (by omega)
      · rw [if_neg hdueB]
        exact mem_rounds_ok_weaken 1 r (r + 1) s.refB.memory hB (by omega)
  · rw [if_neg hpar, if_neg hpar, if_neg hpar]
    have hpar1 : r % 2 = 1 := by
      unfold active_referee_index at hpar
      omega
    constructor
    · by_cases hdueA : should_reset_referee s.refA.initialization_round (r : Int) = true
      · rw [if_pos hdueA]
        exact mem_rounds_ok_weaken 0 r (r + 1) [] (mem_rounds_ok_nil 0 r) (by omega)
      · rw [if_neg hdueA]
        exact mem_rounds_ok_weaken 0 r (r + 1) s.refA.memory hA (by omega)
    · by_cases hdueB : should_reset_referee s.refB.initialization_round (r : Int) = true
      · rw [if_pos hdueB]
        exact mem_rounds_ok_append 1 r [] _ (mem_rounds_ok_nil 1 r) rfl hpar1
      · rw [if_neg hdueB]
        exact mem_rounds_ok_append 1 r s.refB.memory _ hB rfl hpar1

theorem debate_loop_mem_ok (oracle : Oracle) (maxR : Nat) :
    ∀ (fuel r : Nat) (s : DebateState),
      mem_rounds_ok 0 r s.refA.memory → mem_rounds_ok 1 r s.refB.memory →
      mem_rounds_ok 0 ((debate_loop oracle maxR fuel r s).1 + 1)
        ((debate_loop oracle maxR fuel r s).2.refA.memory) ∧
      mem_rounds_ok 1 ((debate_loop oracle maxR fuel r s).1 + 1)
        ((debate_loop oracle maxR fuel r s).2.refB.memory) := by
  intro fuel
  induction fuel with
  | zero =>
    intro r s hA hB
    exact ⟨mem_rounds_ok_weaken 0 r (r + 1) _ hA (by omega),
           mem_rounds_ok_weaken 1 r (r + 1) _ hB (by omega)⟩
  | succ fuel ih =>
    intro r s hA hB
    have hrun := run_round_mem_ok oracle r s hA hB
    rw [debate_loop]
    by_cases hc : (run_round oracle r s).2 = true
    · rw [hc]
      simpa using hrun
    · rw [Bool.not_eq_true] at hc
      rw [hc]
      by_cases hmax : maxR ≤ r
      · simp only [Bool.false_eq_true, if_false, if_pos hmax]
        simpa using hrun
      · simp only [Bool.false_eq_true, if_false, if_neg hmax]
        exact ih (r + 1) _ hrun.1 hrun.2

/-- C9: a referee reset installs a freshly constructed client handle and
clears the private memory; in any round the inactive referee's memory is
never appended to (it is either untouched or cleared by its own reset);
and after any debate the round numbers recorded in each referee's memory
are strictly increasing and all belong to rounds where that referee was
the active one. -/
theorem c9_referee_memory (oracle : Oracle) (maxRounds : Nat) :
    (∀ (ref : RefereeM) (c : Nat),
      (reset_referee ref c).memory = [] ∧ (reset_referee ref c).ai_client = c) ∧
    (∀ (r : Nat) (s : DebateState), r % 2 = 0 →
      (run_round oracle r s).1.refB.memory = s.refB.memory ∨
      (run_round oracle r s).1.refB.memory = []) ∧
    (∀ (r : Nat) (s : DebateState), r % 2 = 1 →
      (run_round oracle r s).1.refA.memory = s.refA.memory ∨
      (run_round oracle r s).1.refA.memory = []) ∧
    ((conduct_debate oracle maxRounds).2.refA.memory.Pairwise
        (fun a b => a.round < b.round) ∧
      ∀ e ∈ (conduct_debate oracle maxRounds).2.refA.memory, e.round % 2 = 0) ∧
    ((conduct_debate oracle maxRounds).2.refB.memory.Pairwise
        (fun a b => a.round < b.round) ∧
      ∀ e ∈ (conduct_debate oracle maxRounds).2.refB.memory, e.round % 2 = 1) := by
  refine ⟨fun ref c => ⟨rfl, rfl⟩, ?_, ?_, ?_, ?_⟩
  · intro r s hpar
    have hidx : active_referee_index r = 0 := by unfold active_referee_index; omega
    simp only [run_round]
    rw [if_pos hidx]
    by_cases hdueB : should_reset_referee s.refB.initialization_round (r : Int) = true
    · rw [if_pos hdueB]
      exact Or.inr rfl
    · rw [if_neg hdueB]
      exact Or.inl rfl
  · intro r s hpar
    have hidx : ¬(active_referee_index r = 0) := by unfold active_referee_index; omega
    simp only [run_round]
    rw [if_neg hidx]
    by_cases hdueA : should_reset_referee s.refA.initialization_round (r : Int) = true
    · rw [if_pos hdueA]
      exact Or.inr rfl
    · rw [if_neg hdueA]
      exact Or.inl rfl
  · have h := debate_loop_mem_ok oracle maxRounds maxRounds 1 init_debate_state
      (mem_rounds_ok_nil 0 1) (mem_rounds_ok_nil 1 1)
    exact ⟨h.1.1, fun e he => (h.1.2 e he).2⟩
  · have h := debate_loop_mem_ok oracle maxRounds maxRounds 1 init_debate_state
      (mem_rounds_ok_nil 0 1) (mem_rounds_ok_nil 1 1)
    exact ⟨h.2.1, fun e he => (h.2.2 e he).2⟩

/-- Witness for C9 at a concrete round and state: round 2 is an
A-active round, so referee B's memory is untouched or cleared. -/
theorem c9_referee_memory_witness :
    (reset_referee ⟨"Referee A", 0, 0, []⟩ 7).memory = [] ∧
    ((run_round oracle_const 2 init_debate_state).1.refB.memory =
        init_debate_state.refB.memory ∨
      (run_round oracle_const 2 init_debate_state).1.refB.memory = []) := by
  constructor
  · exact ((c9_referee_memory oracle_const 1).1 _ 7).1
  · exact (c9_referee_memory oracle_const 1).2.1 2 init_debate_state (by norm_num)

end MedDiag
